import Mathlib

/-!
# Verification of the yupdates SDK request/response contract layer

Shallow embedding of the SDK's pure contract logic:

* the item-time codec `normalize_item_time` (src/yupdates/__init__.py),
* the pre-flight validation and request construction of
  `YupdatesClient.read_items` and `YupdatesClient.new_items`
  (src/yupdates/client.py),
* the strict dict ↔ dataclass mapping helpers
  `_map_dataclasses_to_dicts` / `_map_dicts_to_dataclasses`,
* the `ping_bool` convenience wrapper.

Python strings are modelled as `List Char`; Python `int` as `Int`
(arbitrary precision, matching Python); a value that may be an int or a
string (the documented `str or int` item-time input) as `PyVal`.
Python functions that raise `ValueError` are modelled in `Except String`,
with the error branch meaning "raises before any network request";
reaching the HTTP call is modelled by returning the fully built request.
-/

namespace Yupdates

/-- Equality on `Except` results is decidable when it is on both components. -/
instance instDecEqExcept {ε α : Type} [DecidableEq ε] [DecidableEq α] :
    DecidableEq (Except ε α) := fun x y =>
  match x, y with
  | .ok a, .ok b => decidable_of_iff (a = b) (by simp)
  | .error a, .error b => decidable_of_iff (a = b) (by simp)
  | .ok _, .error _ => isFalse (by simp)
  | .error _, .ok _ => isFalse (by simp)

/-- ASCII whitespace as recognised by Python's `str.strip()` and `int()`
(space, tab, newline, carriage return, vertical tab, form feed).
Non-ASCII whitespace is not modelled. -/
def isPyWhitespace (c : Char) : Bool :=
  c.toNat = 32 || c.toNat = 9 || c.toNat = 10 || c.toNat = 13 || c.toNat = 11 || c.toNat = 12

/-- ASCII decimal digit `'0'..'9'`. -/
def isAsciiDigit (c : Char) : Bool :=
  48 ≤ c.toNat && c.toNat ≤ 57

/-- Numeric value of an ASCII digit character. -/
def digitVal (c : Char) : Nat := c.toNat - 48

/-- The ASCII digit character for `n < 10`. -/
def digitChar (n : Nat) : Char := Char.ofNat (n + 48)

/-- Python `str.strip()` with no argument: remove leading and trailing
whitespace. -/
def pyStrip (s : List Char) : List Char :=
  ((s.dropWhile isPyWhitespace).reverse.dropWhile isPyWhitespace).reverse

/-- The tail of the digit part of a Python decimal integer literal:
a run of digits in which single underscores may appear between digits
(`int("1_0")` is legal, `int("1__0")`, `int("1_")` are not). The flag
records whether the previous character was an underscore: right after an
underscore another underscore is illegal and the run may not end. -/
def digitTailAux : List Char → Bool → Bool
  | [], afterU => !afterU
  | c :: rest, afterU =>
    if c = '_' then !afterU && digitTailAux rest true
    else isAsciiDigit c && digitTailAux rest false

/-- The tail of the digit part, starting right after a digit. -/
def digitTail (l : List Char) : Bool := digitTailAux l false

/-- The digit part of a Python decimal integer literal: at least one digit,
single underscores allowed between digits only. -/
def digitPart : List Char → Bool
  | [] => false
  | c :: rest => isAsciiDigit c && digitTail rest

/-- Decimal value of a digit run (underscores skipped), accumulator style. -/
def digitsToNat : Nat → List Char → Nat
  | acc, [] => acc
  | acc, c :: rest =>
    if c = '_' then digitsToNat acc rest
    else digitsToNat (acc * 10 + digitVal c) rest

/-- Python `str()` of a non-negative integer by repeated division.
The first argument is structural-recursion fuel; `natToStr` supplies
enough fuel for the result to be the full decimal expansion. -/
def natToStrAux : Nat → Nat → List Char
  | 0, _ => []
  | fuel + 1, n =>
    if n < 10 then [digitChar n]
    else natToStrAux fuel (n / 10) ++ [digitChar (n % 10)]

/-- Python `str()` of a non-negative integer. -/
def natToStr (n : Nat) : List Char := natToStrAux (n + 1) n

/-- Python `str()` of an integer. -/
def intToStr (i : Int) : List Char :=
  if i < 0 then '-' :: natToStr i.natAbs else natToStr i.toNat

/-- Python `int(s)` on a string: optional surrounding whitespace, an optional
single `+`/`-` sign, then a non-empty digit run with single underscores
between digits. `none` models Python raising `ValueError`. -/
def pyIntOfString (s : List Char) : Option Int :=
  match pyStrip s with
  | [] => none
  | c :: rest =>
    if c = '+' then
      if digitPart rest then some ((digitsToNat 0 rest : Nat) : Int) else none
    else if c = '-' then
      if digitPart rest then some (-((digitsToNat 0 rest : Nat) : Int)) else none
    else
      if digitPart (c :: rest) then some ((digitsToNat 0 (c :: rest) : Nat) : Int) else none

/-- Python `str.zfill(width)`: left-pad with `'0'` to `width`, keeping a
leading sign in front of the padding. -/
def zfill (width : Nat) (s : List Char) : List Char :=
  if width ≤ s.length then s
  else
    match s with
    | [] => List.replicate width '0'
    | c :: rest =>
      if c = '+' || c = '-' then c :: (List.replicate (width - s.length) '0' ++ rest)
      else List.replicate (width - s.length) '0' ++ s

/-- Python `s.split(".")`: split on every `'.'`, keeping empty pieces. -/
def splitOnDot : List Char → List (List Char)
  | [] => [[]]
  | c :: rest =>
    if c = '.' then [] :: splitOnDot rest
    else
      match splitOnDot rest with
      | [] => [[c]]
      | h :: t => (c :: h) :: t

/-- Python `"." in s`. -/
def hasDot (s : List Char) : Bool := s.any (fun c => c = '.')

/-- An item-time argument: the SDK documents `str or int`. -/
inductive PyVal where
  | int (i : Int)
  | str (s : List Char)
deriving DecidableEq

/-- Python `str()` of a `PyVal`. -/
def pyStr : PyVal → List Char
  | .int i => intToStr i
  | .str s => s

/-- Python truthiness: `0` and `""` are falsy, everything else truthy. -/
def pyTruthy : PyVal → Bool
  | .int i => decide (i ≠ 0)
  | .str s => decide (s ≠ [])

/-- Truthiness of an optional value; `None` is falsy. -/
def optTruthy : Option PyVal → Bool
  | none => false
  | some v => pyTruthy v

/-- The parsing stage of `normalize_item_time` (src/yupdates/__init__.py
lines 19-26): take `str(item_time)`; if it contains a `'.'`, `base` and
`slot` are `int()` of the first two `split(".")` pieces; otherwise `base`
is `int(item_time)` (identity on an int argument) and `slot` is `0`.
`none` models `int()` raising `ValueError`. -/
def parseBaseSlot (item_time : PyVal) : Option (Int × Int) :=
  let item_time_str := pyStr item_time
  if hasDot item_time_str then
    match pyIntOfString ((splitOnDot item_time_str).getD 0 []),
          pyIntOfString ((splitOnDot item_time_str).getD 1 []) with
    | some base, some slot => some (base, slot)
    | _, _ => none
  else
    match item_time with
    | .int i => some (i, 0)
    | .str s =>
      match pyIntOfString s with
      | some base => some (base, 0)
      | none => none

/-- `normalize_item_time` (src/yupdates/__init__.py lines 19-31): parse
`base` and `slot`, check `0 ≤ base ≤ 9999999999999` and
`0 ≤ slot ≤ 99999`, and return `str(base).zfill(13) ++ "." ++
str(slot).zfill(5)`. The error branch models `ValueError`. -/
def normalize_item_time (item_time : PyVal) : Except String (List Char) :=
  match parseBaseSlot item_time with
  | none => .error "invalid literal for int() with base 10"
  | some (base, slot) =>
    if ¬(0 ≤ base ∧ base ≤ 9999999999999) then
      .error "item_time timestamp is out of range"
    else if ¬(0 ≤ slot ∧ slot ≤ 99999) then
      .error "item_time suffix is out of range"
    else
      .ok (zfill 13 (intToStr base) ++ '.' :: zfill 5 (intToStr slot))

/-- A JSON-decoded Python value, as produced by `json.loads`. Dataclass
construction does not check field types at runtime, so every dataclass
field below holds a `JVal`. -/
inductive JVal where
  | null
  | bool (b : Bool)
  | int (i : Int)
  | str (s : String)
  | arr (xs : List JVal)

/-- The `AssociatedFile` dataclass (src/yupdates/models.py). -/
structure AssociatedFile where
  url : String
  length : Int
  type_str : String
deriving DecidableEq

/-- The `InputItem` dataclass (src/yupdates/models.py): `title`, `content`,
`canonical_url`, and `associated_files` defaulting to `None`. -/
structure InputItem where
  title : String
  content : String
  canonical_url : String
  associated_files : Option (List AssociatedFile) := none
deriving DecidableEq

/-- An element of the list passed to `new_items`: either an actual
`InputItem` instance or any other Python value (`isinstance` fails). -/
inductive PyObj where
  | input (item : InputItem)
  | other
deriving DecidableEq

/-- Whether a `PyObj` passes `isinstance(x, InputItem)`. -/
def isInputItem : PyObj → Bool
  | .input _ => true
  | .other => false

/-- The `FeedItem` dataclass (src/yupdates/models.py): nine required fields
and `associated_files` defaulting to `None` (modelled as `JVal.null`).
Field values are unchecked `JVal`s because Python dataclasses do not
enforce annotations at runtime. -/
structure FeedItem where
  feed_id : JVal
  item_id : JVal
  input_id : JVal
  title : JVal
  content : JVal
  canonical_url : JVal
  item_time : JVal
  item_time_ms : JVal
  deleted : JVal
  associated_files : JVal

/-- All keyword parameters accepted by `FeedItem(**d)`. -/
def feedItemFields : List String :=
  ["feed_id", "item_id", "input_id", "title", "content", "canonical_url",
   "item_time", "item_time_ms", "deleted", "associated_files"]

/-- The `FeedItem` parameters that have no default value. -/
def feedItemRequiredFields : List String :=
  ["feed_id", "item_id", "input_id", "title", "content", "canonical_url",
   "item_time", "item_time_ms", "deleted"]

/-- One step of `_map_dicts_to_dataclasses`: `FeedItem(**data_dict)`
(src/yupdates/client.py line 256). A key outside the field list is a
`TypeError` (unexpected keyword argument); a missing key without a default
is a `TypeError` (missing required argument); `associated_files` defaults
to `None` when absent. The dict is a key-value list with distinct keys
(Python dicts cannot repeat keys). -/
def feedItemOfDict (d : List (String × JVal)) : Except String FeedItem :=
  if ¬(∀ kv ∈ d, kv.1 ∈ feedItemFields) then
    .error "got an unexpected keyword argument"
  else if ¬(∀ k ∈ feedItemRequiredFields, (d.lookup k).isSome) then
    .error "missing required positional argument"
  else
    .ok { feed_id := (d.lookup "feed_id").getD .null
          item_id := (d.lookup "item_id").getD .null
          input_id := (d.lookup "input_id").getD .null
          title := (d.lookup "title").getD .null
          content := (d.lookup "content").getD .null
          canonical_url := (d.lookup "canonical_url").getD .null
          item_time := (d.lookup "item_time").getD .null
          item_time_ms := (d.lookup "item_time_ms").getD .null
          deleted := (d.lookup "deleted").getD .null
          associated_files := (d.lookup "associated_files").getD .null }

/-- `_map_dicts_to_dataclasses` (src/yupdates/client.py lines 253-258)
specialised to `FeedItem`: map each dict, propagating the first error. -/
def map_dicts_to_dataclasses : List (List (String × JVal)) → Except String (List FeedItem)
  | [] => .ok []
  | d :: rest =>
    match feedItemOfDict d, map_dicts_to_dataclasses rest with
    | .ok fi, .ok fis => .ok (fi :: fis)
    | .error e, _ => .error e
    | .ok _, .error e => .error e

/-- `_map_dataclasses_to_dicts` (src/yupdates/client.py lines 244-250)
specialised to `InputItem`: raise `ValueError` at the first element that
is not an `InputItem` instance, otherwise keep the items (the `asdict`
serialisation is field-for-field and is not further modelled). -/
def map_dataclasses_to_dicts : List PyObj → Except String (List InputItem)
  | [] => .ok []
  | .input item :: rest =>
    match map_dataclasses_to_dicts rest with
    | .ok items => .ok (item :: items)
    | .error e => .error e
  | .other :: _ => .error "expected list of InputItem"

/-- Outcome of `new_items` up to the network boundary. `noop warned` is the
early return on an empty list (`warned` records whether
`logger.warning` ran); `request payload` means the HTTP POST was issued
with the serialised items; `error` means an exception was raised before
any network call. -/
inductive NewItemsOutcome where
  | noop (warned : Bool)
  | request (payload : List InputItem)
  | error (msg : String)
deriving DecidableEq

/-- `YupdatesClient.new_items` (src/yupdates/client.py lines 90-130) up to
the network boundary: an empty (falsy) list returns immediately, warning
unless `quiet`; otherwise the items are serialised (which type-checks every
element) and the POST request is issued with the resulting payload. -/
def new_items (quiet : Bool) (items : List PyObj) : NewItemsOutcome :=
  if items = [] then
    .noop !quiet
  else
    match map_dataclasses_to_dicts items with
    | .ok payload => .request payload
    | .error e => .error e

/-- A log record emitted via the module logger. -/
inductive LogEvent where
  | errorLog (msg : String)
deriving DecidableEq

/-- `YupdatesClient.ping_bool` (src/yupdates/client.py lines 78-88), with
the outcome of the underlying `ping()` call passed explicitly: on success
return `True` with no logging; on any exception log at error level
(unconditionally — `quiet` is never consulted) and return `False`. -/
def ping_bool (quiet : Bool) (pingOutcome : Except String JVal) : Bool × List LogEvent :=
  match pingOutcome with
  | .ok _ => (true, [])
  | .error e => (false, [.errorLog e])

/-- The HTTP GET request `read_items` would issue: the stripped feed id and
the query parameters in insertion order. -/
structure ReadRequest where
  feed_id : List Char
  params : List (String × List Char)
deriving DecidableEq

/-- Python `urlencode` rendering of a bool query value. -/
def pyBoolStr (b : Bool) : List Char :=
  if b then "True".data else "False".data

/-- `YupdatesClient.read_items` (src/yupdates/client.py lines 132-198) up
to the network boundary, for a string `feed_id` argument. Follows the
source order exactly: falsy `feed_id` check, strip, length-45 check, the
two `max_items` checks, normalization of `item_time_after` then
`item_time_before` (each only when not `None`), then the
mutual-exclusion check — which tests Python truthiness of the original
arguments, not `is not None`. An `error` result models `ValueError`
raised before any network call; `ok` models reaching `urlopen` with the
built request. -/
def read_items (feed_id : List Char) (max_items : Int) (include_item_content : Bool)
    (item_time_after item_time_before : Option PyVal) : Except String ReadRequest :=
  if feed_id = [] then .error "`feed_id` is missing"
  else
    let fid := pyStrip feed_id
    if fid.length ≠ 45 then .error "`feed_id` expected to be 45 characters"
    else if include_item_content ∧ ¬(1 ≤ max_items ∧ max_items ≤ 10) then
      .error "`max_items` must be 1 to 10 when `include_item_content` is True"
    else if ¬(1 ≤ max_items ∧ max_items ≤ 50) then
      .error "`max_items` must be 1 to 50"
    else
      match (match item_time_after with
             | none => .ok none
             | some t => (normalize_item_time t).map some :
               Except String (Option (List Char))) with
      | .error e => .error e
      | .ok afterNorm =>
        match (match item_time_before with
               | none => .ok none
               | some t => (normalize_item_time t).map some :
                 Except String (Option (List Char))) with
        | .error e => .error e
        | .ok beforeNorm =>
          if optTruthy item_time_after ∧ optTruthy item_time_before then
            .error "cannot simultaneously query `item_time_after` and `item_time_before`"
          else
            .ok { feed_id := fid
                  params :=
                    [("max_items", intToStr max_items),
                     ("include_item_content", pyBoolStr include_item_content)]
                    ++ (match afterNorm with
                        | none => []
                        | some n => [("item_time_after", n)])
                    ++ (match beforeNorm with
                        | none => []
                        | some n => [("item_time_before", n)]) }

/-- A response element carrying the nine required `FeedItem` keys and no
`associated_files` key. -/
def c4SampleDict : List (String × JVal) :=
  [("feed_id", .str "f"), ("item_id", .str "i"), ("input_id", .str "n"),
   ("title", .str "t"), ("content", .str "c"), ("canonical_url", .str "u"),
   ("item_time", .str "0000000000001.00000"), ("item_time_ms", .int 1),
   ("deleted", .bool false)]

/-- The record `FeedItem(**c4SampleDict)` produces. -/
def c4SampleItem : FeedItem :=
  { feed_id := .str "f", item_id := .str "i", input_id := .str "n",
    title := .str "t", content := .str "c", canonical_url := .str "u",
    item_time := .str "0000000000001.00000", item_time_ms := .int 1,
    deleted := .bool false, associated_files := .null }

/-! ## Character-level lemmas -/

lemma digitChar_isAsciiDigit {n : Nat} (h : n < 10) : isAsciiDigit (digitChar n) = true := by
  interval_cases n <;> decide

lemma digitVal_digitChar {n : Nat} (h : n < 10) : digitVal (digitChar n) = n := by
  interval_cases n <;> decide

lemma digitChar_ne_underscore {n : Nat} (h : n < 10) : digitChar n ≠ '_' := by
  interval_cases n <;> decide

lemma ne_underscore_of_digit {c : Char} (h : isAsciiDigit c = true) : c ≠ '_' := by
  intro he
  subst he
  exact absurd h (by decide)

lemma ne_dot_of_digit {c : Char} (h : isAsciiDigit c = true) : c ≠ '.' := by
  intro he
  subst he
  exact absurd h (by decide)

lemma ne_plus_of_digit {c : Char} (h : isAsciiDigit c = true) : c ≠ '+' := by
  intro he
  subst he
  exact absurd h (by decide)

lemma ne_minus_of_digit {c : Char} (h : isAsciiDigit c = true) : c ≠ '-' := by
  intro he
  subst he
  exact absurd h (by decide)

lemma not_whitespace_of_digit {c : Char} (h : isAsciiDigit c = true) :
    isPyWhitespace c = false := by
  simp only [isAsciiDigit, Bool.and_eq_true, decide_eq_true_eq] at h
  simp only [isPyWhitespace, Bool.or_eq_false_iff, decide_eq_false_iff_not]
  omega

/-! ## Digit-run lemmas -/

lemma digitTailAux_cons (c : Char) (rest : List Char) (afterU : Bool) :
    digitTailAux (c :: rest) afterU =
      if c = '_' then !afterU && digitTailAux rest true
      else isAsciiDigit c && digitTailAux rest false := rfl

lemma digitTail_of_digits {l : List Char} (h : ∀ c ∈ l, isAsciiDigit c = true) :
    digitTail l = true := by
  unfold digitTail
  induction l with
  | nil => rfl
  | cons c rest ih =>
    have hc : isAsciiDigit c = true := h c (List.mem_cons_self c rest)
    rw [digitTailAux_cons, if_neg (ne_underscore_of_digit hc), hc,
      ih fun d hd => h d (List.mem_cons_of_mem c hd)]
    rfl

lemma digitPart_of_digits {l : List Char} (hne : l ≠ [])
    (h : ∀ c ∈ l, isAsciiDigit c = true) : digitPart l = true := by
  cases l with
  | nil => exact absurd rfl hne
  | cons c rest =>
    simp only [digitPart]
    rw [h c (List.mem_cons_self c rest),
      digitTail_of_digits fun d hd => h d (List.mem_cons_of_mem c hd)]
    rfl

lemma digitsToNat_cons (acc : Nat) (c : Char) (rest : List Char) :
    digitsToNat acc (c :: rest) =
      if c = '_' then digitsToNat acc rest
      else digitsToNat (acc * 10 + digitVal c) rest := rfl

lemma digitsToNat_append (acc : Nat) (xs ys : List Char) :
    digitsToNat acc (xs ++ ys) = digitsToNat (digitsToNat acc xs) ys := by
  induction xs generalizing acc with
  | nil => rfl
  | cons c rest ih =>
    rw [List.cons_append, digitsToNat_cons, digitsToNat_cons]
    by_cases hc : c = '_'
    · rw [if_pos hc, if_pos hc, ih]
    · rw [if_neg hc, if_neg hc, ih]

lemma digitsToNat_replicate_zero (acc k : Nat) :
    digitsToNat acc (List.replicate k '0') = acc * 10 ^ k := by
  induction k generalizing acc with
  | zero => simp [digitsToNat]
  | succ k ih =>
    simp only [List.replicate_succ, digitsToNat]
    rw [if_neg (by decide : ¬('0' : Char) = '_'), ih]
    have : digitVal '0' = 0 := by decide
    rw [this]
    ring

/-! ## Decimal printing lemmas -/

lemma natToStrAux_digits (fuel : Nat) :
    ∀ n, ∀ c ∈ natToStrAux fuel n, isAsciiDigit c = true := by
  induction fuel with
  | zero => intro n c hc; simp [natToStrAux] at hc
  | succ fuel ih =>
    intro n c hc
    simp only [natToStrAux] at hc
    split at hc
    · simp only [List.mem_singleton] at hc
      subst hc
      exact digitChar_isAsciiDigit (by omega)
    · rw [List.mem_append, List.mem_singleton] at hc
      rcases hc with hc | hc
      · exact ih _ c hc
      · subst hc
        exact digitChar_isAsciiDigit (Nat.mod_lt _ (by omega))

lemma natToStr_digits (n : Nat) : ∀ c ∈ natToStr n, isAsciiDigit c = true :=
  natToStrAux_digits (n + 1) n

lemma natToStrAux_ne_nil {fuel n : Nat} (h : n < fuel) : natToStrAux fuel n ≠ [] := by
  cases fuel with
  | zero => omega
  | succ fuel =>
    simp only [natToStrAux]
    split
    · simp
    · simp

lemma natToStr_ne_nil (n : Nat) : natToStr n ≠ [] :=
  natToStrAux_ne_nil (Nat.lt_succ_self n)

lemma natToStrAux_toNat (fuel : Nat) :
    ∀ n acc, n < fuel →
      digitsToNat acc (natToStrAux fuel n) = acc * 10 ^ (natToStrAux fuel n).length + n := by
  induction fuel with
  | zero => intro n acc h; omega
  | succ fuel ih =>
    intro n acc h
    simp only [natToStrAux]
    split
    · rename_i hn
      simp only [digitsToNat]
      rw [if_neg (digitChar_ne_underscore hn), digitVal_digitChar hn]
      simp
    · rename_i hn
      push_neg at hn
      have hdiv : n / 10 < fuel := by
        have h1 : n / 10 < n := Nat.div_lt_self (by omega) (by omega)
        omega
      rw [digitsToNat_append]
      rw [ih (n / 10) acc hdiv]
      simp only [digitsToNat]
      rw [if_neg (digitChar_ne_underscore (Nat.mod_lt _ (by omega))),
        digitVal_digitChar (Nat.mod_lt _ (by omega))]
      simp only [List.length_append, List.length_singleton]
      have : 10 * (n / 10) + n % 10 = n := Nat.div_add_mod n 10
      ring_nf
      omega

lemma natToStr_toNat (n : Nat) : digitsToNat 0 (natToStr n) = n := by
  have := natToStrAux_toNat (n + 1) n 0 (Nat.lt_succ_self n)
  simpa using this

lemma intToStr_of_nonneg {i : Int} (h : 0 ≤ i) : intToStr i = natToStr i.toNat := by
  unfold intToStr
  rw [if_neg (by omega)]

/-! ## Strip, split and parse lemmas -/

lemma dropWhile_of_all_false {p : Char → Bool} {l : List Char}
    (h : ∀ c ∈ l, p c = false) : l.dropWhile p = l := by
  cases l with
  | nil => rfl
  | cons c rest =>
    rw [List.dropWhile_cons, if_neg]
    rw [h c (List.mem_cons_self c rest)]
    simp

lemma pyStrip_of_digits {l : List Char} (h : ∀ c ∈ l, isAsciiDigit c = true) :
    pyStrip l = l := by
  unfold pyStrip
  rw [dropWhile_of_all_false fun c hc => not_whitespace_of_digit (h c hc)]
  rw [dropWhile_of_all_false fun c hc =>
    not_whitespace_of_digit (h c (List.mem_reverse.mp hc))]
  exact List.reverse_reverse l

lemma pyIntOfString_digits {l : List Char} (hne : l ≠ [])
    (h : ∀ c ∈ l, isAsciiDigit c = true) :
    pyIntOfString l = some ((digitsToNat 0 l : Nat) : Int) := by
  unfold pyIntOfString
  rw [pyStrip_of_digits h]
  cases l with
  | nil => exact absurd rfl hne
  | cons c rest =>
    have hc : isAsciiDigit c = true := h c (List.mem_cons_self c rest)
    dsimp only
    rw [if_neg (ne_plus_of_digit hc), if_neg (ne_minus_of_digit hc),
      if_pos (digitPart_of_digits (by simp) h)]

lemma hasDot_of_digits {l : List Char} (h : ∀ c ∈ l, isAsciiDigit c = true) :
    hasDot l = false := by
  unfold hasDot
  rw [List.any_eq_false]
  intro c hc
  simp only [decide_eq_true_eq]
  exact ne_dot_of_digit (h c hc)

lemma hasDot_sep (A B : List Char) : hasDot (A ++ '.' :: B) = true := by
  unfold hasDot
  rw [List.any_eq_true]
  exact ⟨'.', by simp, by simp⟩

lemma splitOnDot_cons (c : Char) (rest : List Char) :
    splitOnDot (c :: rest) =
      if c = '.' then [] :: splitOnDot rest
      else
        match splitOnDot rest with
        | [] => [[c]]
        | h :: t => (c :: h) :: t := rfl

lemma splitOnDot_no_dot {l : List Char} (h : hasDot l = false) :
    splitOnDot l = [l] := by
  induction l with
  | nil => rfl
  | cons c rest ih =>
    simp only [hasDot, List.any_cons, Bool.or_eq_false_iff, decide_eq_false_iff_not] at h
    rw [splitOnDot_cons, if_neg h.1, ih h.2]

lemma splitOnDot_sep {A : List Char} (B : List Char) (h : hasDot A = false) :
    splitOnDot (A ++ '.' :: B) = A :: splitOnDot B := by
  induction A with
  | nil =>
    rw [List.nil_append, splitOnDot_cons, if_pos rfl]
  | cons c rest ih =>
    simp only [hasDot, List.any_cons, Bool.or_eq_false_iff, decide_eq_false_iff_not] at h
    rw [List.cons_append, splitOnDot_cons, if_neg h.1,
      ih (by unfold hasDot; rw [List.any_eq_false]; intro d hd
             simp only [decide_eq_true_eq]
             have := List.any_eq_false.mp h.2 d hd
             simpa using this)]

/-- Splitting `A ++ "." ++ B` with both pieces dot-free yields exactly
`[A, B]`. -/
lemma splitOnDot_pair {A B : List Char} (hA : hasDot A = false)
    (hB : hasDot B = false) : splitOnDot (A ++ '.' :: B) = [A, B] := by
  rw [splitOnDot_sep B hA, splitOnDot_no_dot hB]

lemma zfill_of_digits {l : List Char} (w : Nat) (hne : l ≠ [])
    (h : ∀ c ∈ l, isAsciiDigit c = true) :
    zfill w l = List.replicate (w - l.length) '0' ++ l := by
  unfold zfill
  by_cases hw : w ≤ l.length
  · rw [if_pos hw, Nat.sub_eq_zero_of_le hw, List.replicate_zero, List.nil_append]
  · rw [if_neg hw]
    cases l with
    | nil => exact absurd rfl hne
    | cons c rest =>
      have hc : isAsciiDigit c = true := h c (List.mem_cons_self c rest)
      dsimp only
      rw [if_neg]
      simp only [Bool.or_eq_true, not_or]
      exact ⟨fun hcp => ne_plus_of_digit hc (by simpa using hcp),
             fun hcm => ne_minus_of_digit hc (by simpa using hcm)⟩

/-! ## Item-time codec lemmas -/

lemma pad_digits (k n : Nat) :
    ∀ c ∈ List.replicate k '0' ++ natToStr n, isAsciiDigit c = true := by
  intro c hc
  rw [List.mem_append] at hc
  rcases hc with hc | hc
  · rw [List.eq_of_mem_replicate hc]; decide
  · exact natToStr_digits n c hc

lemma pad_ne_nil (k n : Nat) : List.replicate k '0' ++ natToStr n ≠ [] := by
  simp [natToStr_ne_nil n]

lemma digitsToNat_pad (k n : Nat) :
    digitsToNat 0 (List.replicate k '0' ++ natToStr n) = n := by
  rw [digitsToNat_append, digitsToNat_replicate_zero]
  simpa using natToStr_toNat n

/-- Parsing a string built from two non-empty dot-free digit runs joined by
a single `'.'` recovers the decimal values of the two runs. -/
lemma parseBaseSlot_digit_pair {P1 P2 : List Char} (h1 : P1 ≠ []) (h2 : P2 ≠ [])
    (hd1 : ∀ c ∈ P1, isAsciiDigit c = true) (hd2 : ∀ c ∈ P2, isAsciiDigit c = true) :
    parseBaseSlot (.str (P1 ++ '.' :: P2)) =
      some (((digitsToNat 0 P1 : Nat) : Int), ((digitsToNat 0 P2 : Nat) : Int)) := by
  unfold parseBaseSlot
  dsimp only [pyStr]
  rw [if_pos (hasDot_sep P1 P2)]
  rw [splitOnDot_pair (hasDot_of_digits hd1) (hasDot_of_digits hd2)]
  simp only [List.getD_cons_zero, List.getD_cons_succ]
  rw [pyIntOfString_digits h1 hd1, pyIntOfString_digits h2 hd2]

/-- Every successful `normalize_item_time` result is the canonical
zero-padded form of an in-range base and slot. -/
lemma normalize_ok_elim {x : PyVal} {r : List Char}
    (h : normalize_item_time x = .ok r) :
    ∃ b s : Nat, b ≤ 9999999999999 ∧ s ≤ 99999 ∧
      parseBaseSlot x = some ((b : Int), (s : Int)) ∧
      r = zfill 13 (natToStr b) ++ '.' :: zfill 5 (natToStr s) := by
  unfold normalize_item_time at h
  cases hp : parseBaseSlot x with
  | none => rw [hp] at h; exact absurd h (by simp)
  | some p =>
    obtain ⟨base, slot⟩ := p
    rw [hp] at h
    dsimp only at h
    by_cases hb : 0 ≤ base ∧ base ≤ 9999999999999
    · rw [if_neg (not_not_intro hb)] at h
      by_cases hs : 0 ≤ slot ∧ slot ≤ 99999
      · rw [if_neg (not_not_intro hs)] at h
        refine ⟨base.toNat, slot.toNat, by omega, by omega, ?_, ?_⟩
        · rw [Int.toNat_of_nonneg hb.1, Int.toNat_of_nonneg hs.1]
        · rw [Except.ok.injEq] at h
          rw [← h, intToStr_of_nonneg hb.1, intToStr_of_nonneg hs.1]
      · rw [if_pos hs] at h
        exact absurd h (by simp)
    · rw [if_pos hb] at h
      exact absurd h (by simp)

/-- `str()` of a natural number cast to `Int` is its decimal expansion. -/
lemma intToStr_natCast (n : Nat) : intToStr (n : Int) = natToStr n := by
  rw [intToStr_of_nonneg (by omega)]
  simp

/-- Normalizing the canonical form of an in-range base/slot pair returns it
unchanged. -/
lemma normalize_canonical {b s : Nat} (hb : b ≤ 9999999999999) (hs : s ≤ 99999) :
    normalize_item_time (.str (zfill 13 (natToStr b) ++ '.' :: zfill 5 (natToStr s))) =
      .ok (zfill 13 (natToStr b) ++ '.' :: zfill 5 (natToStr s)) := by
  have hz13 := zfill_of_digits 13 (natToStr_ne_nil b) (natToStr_digits b)
  have hz5 := zfill_of_digits 5 (natToStr_ne_nil s) (natToStr_digits s)
  unfold normalize_item_time
  rw [hz13, hz5]
  rw [parseBaseSlot_digit_pair (pad_ne_nil _ b) (pad_ne_nil _ s)
    (pad_digits _ b) (pad_digits _ s)]
  rw [digitsToNat_pad, digitsToNat_pad]
  dsimp only
  rw [if_neg (not_not_intro ⟨by omega, by omega⟩),
    if_neg (not_not_intro ⟨by omega, by omega⟩)]
  rw [intToStr_natCast, intToStr_natCast]
  rw [Except.ok.injEq, hz13, hz5]

/-- Two item-time inputs that parse to the same base/slot pair normalize
identically. -/
lemma normalize_eq_of_parse_eq {x y : PyVal}
    (h : parseBaseSlot x = parseBaseSlot y) :
    normalize_item_time x = normalize_item_time y := by
  unfold normalize_item_time
  rw [h]

/-! ## Claim theorems -/

/-- C1 (code bug): when both time bounds are supplied but one of them is
falsy — here `item_time_after = 0`, a legal timestamp — `read_items` does
not raise `ValueError`: it issues the network request with BOTH
`item_time_after` and `item_time_before` in the query string. The
function's own docstring ("You cannot supply `item_time_after` and
`item_time_before` at the same time") and the `is not None` tests used two
lines above show the `if item_time_after and item_time_before` truthiness
test is a slip. -/
theorem claim_C1_both_bounds_zero_is_not_rejected :
    read_items (List.replicate 45 'a') 10 false (some (.int 0)) (some (.int 1)) =
      .ok { feed_id := List.replicate 45 'a'
            params := [("max_items", "10".data),
                       ("include_item_content", "False".data),
                       ("item_time_after", "0000000000000.00000".data),
                       ("item_time_before", "0000000000001.00000".data)] } := by
  decide

/-- C2 counterexample: the claimed equality `normalize(1234) =
"0000001234.00000"` is false — the base is zero-padded to 13 digits, so the
result is `"0000000001234.00000"`. -/
theorem claim_C2_counterexample :
    normalize_item_time (.int 1234) ≠ .ok ("0000001234.00000".data) ∧
    normalize_item_time (.int 1234) = .ok ("0000000001234.00000".data) :=
  ⟨by decide, by decide⟩

/-- C2 (amended): `normalize_item_time` produces the canonical textual form
— a base zero-padded to 13 digits, `'.'`, a slot zero-padded to 5 digits —
and in particular `normalize(1234) = "0000000001234.00000"` (13-digit
padding, correcting the claim's 10-digit example),
`normalize("1661564013555") = "1661564013555.00000"`, and
`normalize("1661564013555.00003") = "1661564013555.00003"`. -/
theorem claim_C2_canonical_form :
    (∀ (x : PyVal) (r : List Char), normalize_item_time x = .ok r →
      ∃ b s : Nat, b ≤ 9999999999999 ∧ s ≤ 99999 ∧
        r = zfill 13 (natToStr b) ++ '.' :: zfill 5 (natToStr s)) ∧
    normalize_item_time (.int 1234) = .ok ("0000000001234.00000".data) ∧
    normalize_item_time (.str "1661564013555".data) = .ok ("1661564013555.00000".data) ∧
    normalize_item_time (.str "1661564013555.00003".data) =
      .ok ("1661564013555.00003".data) := by
  refine ⟨?_, by decide, by decide, by decide⟩
  intro x r h
  obtain ⟨b, s, hb, hs, _, hr⟩ := normalize_ok_elim h
  exact ⟨b, s, hb, hs, hr⟩

/-- C2 witness: the canonical-form property evaluated at the concrete input
`1234`. -/
theorem claim_C2_witness :
    ∃ b s : Nat, b ≤ 9999999999999 ∧ s ≤ 99999 ∧
      "0000000001234.00000".data = zfill 13 (natToStr b) ++ '.' :: zfill 5 (natToStr s) :=
  claim_C2_canonical_form.1 (.int 1234) ("0000000001234.00000".data) (by decide)

/-- C3 counterexample: the claim says `normalize` fails whenever the input
contains more than one `'.'`; in fact `"1.2.3"` is normalized successfully
(the pieces after the second are ignored). -/
theorem claim_C3_counterexample :
    normalize_item_time (.str "1.2.3".data) = .ok ("0000000000001.00002".data) := by
  decide

/-- C3 (amended): `normalize_item_time` fails exactly when parsing fails
(the relevant piece — either of the first two dot-separated pieces, or the
whole input when it has no dot — is not a valid integer) or when the parsed
base or slot is out of range; pieces after the second dot are ignored
rather than rejected, e.g. `"1.2.3"` normalizes to `"0000000000001.00002"`.
In particular `normalize(10_000_000_000_000)` and `normalize("5.100000")`
fail. -/
theorem claim_C3_failure_characterization :
    (∀ x : PyVal, (∃ e, normalize_item_time x = .error e) ↔
      (parseBaseSlot x = none ∨
        ∃ b s : Int, parseBaseSlot x = some (b, s) ∧
          ¬(0 ≤ b ∧ b ≤ 9999999999999 ∧ 0 ≤ s ∧ s ≤ 99999))) ∧
    normalize_item_time (.int 10000000000000) = .error "item_time timestamp is out of range" ∧
    normalize_item_time (.str "5.100000".data) = .error "item_time suffix is out of range" ∧
    normalize_item_time (.str "1.2.3".data) = .ok ("0000000000001.00002".data) := by
  refine ⟨?_, by decide, by decide, by decide⟩
  intro x
  unfold normalize_item_time
  cases hp : parseBaseSlot x with
  | none => simp
  | some p =>
    obtain ⟨base, slot⟩ := p
    dsimp only
    by_cases hbase : 0 ≤ base ∧ base ≤ 9999999999999
    · by_cases hslot : 0 ≤ slot ∧ slot ≤ 99999
      · rw [if_neg (not_not_intro hbase), if_neg (not_not_intro hslot)]
        constructor
        · rintro ⟨e, he⟩
          exact absurd he (by simp)
        · rintro (h | ⟨b, s, hbs, hr⟩)
          · exact absurd h (by simp)
          · rw [Option.some.injEq, Prod.mk.injEq] at hbs
            obtain ⟨hb, hs⟩ := hbs
            subst hb
            subst hs
            exact absurd ⟨hbase.1, hbase.2, hslot.1, hslot.2⟩ hr
      · rw [if_neg (not_not_intro hbase), if_pos hslot]
        exact ⟨fun _ => Or.inr ⟨base, slot, rfl,
            fun hc => hslot ⟨hc.2.2.1, hc.2.2.2⟩⟩,
          fun _ => ⟨_, rfl⟩⟩
    · rw [if_pos hbase]
      exact ⟨fun _ => Or.inr ⟨base, slot, rfl, fun hc => hbase ⟨hc.1, hc.2.1⟩⟩,
        fun _ => ⟨_, rfl⟩⟩

/-- C6 (confirmed): `normalize_item_time` is canonical-form stable — for
in-range `b` and `s`, normalizing `f"{b}.{s}"` and normalizing the
zero-padded `zfill(13)(b) + "." + zfill(5)(s)` give the same result — and
idempotent: every successful result re-normalizes to itself. -/
theorem claim_C6_normalize_stable :
    (∀ b s : Nat, b ≤ 9999999999999 → s ≤ 99999 →
      normalize_item_time (.str (natToStr b ++ '.' :: natToStr s)) =
        normalize_item_time
          (.str (zfill 13 (natToStr b) ++ '.' :: zfill 5 (natToStr s)))) ∧
    (∀ (x : PyVal) (r : List Char), normalize_item_time x = .ok r →
      normalize_item_time (.str r) = .ok r) := by
  constructor
  · intro b s hb hs
    apply normalize_eq_of_parse_eq
    rw [parseBaseSlot_digit_pair (natToStr_ne_nil b) (natToStr_ne_nil s)
      (natToStr_digits b) (natToStr_digits s)]
    rw [zfill_of_digits 13 (natToStr_ne_nil b) (natToStr_digits b),
      zfill_of_digits 5 (natToStr_ne_nil s) (natToStr_digits s)]
    rw [parseBaseSlot_digit_pair (pad_ne_nil _ b) (pad_ne_nil _ s)
      (pad_digits _ b) (pad_digits _ s)]
    rw [natToStr_toNat, natToStr_toNat, digitsToNat_pad, digitsToNat_pad]
  · intro x r h
    obtain ⟨b, s, hb, hs, _, hr⟩ := normalize_ok_elim h
    rw [hr]
    exact normalize_canonical hb hs

/-- C6 witness: canonical-form stability at `b = 1234`, `s = 3`, and
idempotence at the result of normalizing `"1234.3"`. -/
theorem claim_C6_witness :
    (normalize_item_time (.str (natToStr 1234 ++ '.' :: natToStr 3)) =
      normalize_item_time
        (.str (zfill 13 (natToStr 1234) ++ '.' :: zfill 5 (natToStr 3)))) ∧
    normalize_item_time (.str ("0000000001234.00003".data)) =
      .ok ("0000000001234.00003".data) :=
  ⟨claim_C6_normalize_stable.1 1234 3 (by decide) (by decide),
   claim_C6_normalize_stable.2 (.str "1234.3".data) ("0000000001234.00003".data)
     (by decide)⟩

/-- C4 counterexample: the claim says an element with a missing key is an
error; in fact an element missing only the `associated_files` key
deserializes successfully, with `associated_files` defaulting to `None`. -/
theorem claim_C4_counterexample :
    feedItemOfDict c4SampleDict = .ok c4SampleItem := by rfl

/-- C4 (amended): read-side deserialization maps each element
field-for-field onto a `FeedItem` and is strict — an element succeeds
exactly when every key is a known field name and all nine required keys
are present; a missing `associated_files` key alone is tolerated,
defaulting to `None`; the list mapping succeeds exactly when every element
does. -/
theorem claim_C4_strict_mapping :
    (∀ d : List (String × JVal),
      (∃ fi, feedItemOfDict d = .ok fi) ↔
        ((∀ kv ∈ d, kv.1 ∈ feedItemFields) ∧
         (∀ k ∈ feedItemRequiredFields, (d.lookup k).isSome))) ∧
    (∀ (d : List (String × JVal)) (fi : FeedItem), feedItemOfDict d = .ok fi →
      fi.feed_id = (d.lookup "feed_id").getD .null ∧
      fi.item_id = (d.lookup "item_id").getD .null ∧
      fi.input_id = (d.lookup "input_id").getD .null ∧
      fi.title = (d.lookup "title").getD .null ∧
      fi.content = (d.lookup "content").getD .null ∧
      fi.canonical_url = (d.lookup "canonical_url").getD .null ∧
      fi.item_time = (d.lookup "item_time").getD .null ∧
      fi.item_time_ms = (d.lookup "item_time_ms").getD .null ∧
      fi.deleted = (d.lookup "deleted").getD .null ∧
      fi.associated_files = (d.lookup "associated_files").getD .null) ∧
    (∀ ds : List (List (String × JVal)),
      (∃ fis, map_dicts_to_dataclasses ds = .ok fis) ↔
        ∀ d ∈ ds, ∃ fi, feedItemOfDict d = .ok fi) := by
  refine ⟨?_, ?_, ?_⟩
  · intro d
    unfold feedItemOfDict
    by_cases h1 : ∀ kv ∈ d, kv.1 ∈ feedItemFields
    · rw [if_neg (not_not_intro h1)]
      by_cases h2 : ∀ k ∈ feedItemRequiredFields, (d.lookup k).isSome
      · rw [if_neg (not_not_intro h2)]
        exact ⟨fun _ => ⟨h1, h2⟩, fun _ => ⟨_, rfl⟩⟩
      · rw [if_pos h2]
        exact ⟨fun ⟨fi, hfi⟩ => absurd hfi (by simp),
          fun hc => absurd hc.2 h2⟩
    · rw [if_pos h1]
      exact ⟨fun ⟨fi, hfi⟩ => absurd hfi (by simp),
        fun hc => absurd hc.1 h1⟩
  · intro d fi hfi
    unfold feedItemOfDict at hfi
    split_ifs at hfi
    rw [Except.ok.injEq] at hfi
    subst hfi
    exact ⟨rfl, rfl, rfl, rfl, rfl, rfl, rfl, rfl, rfl, rfl⟩
  · intro ds
    induction ds with
    | nil =>
      constructor
      · intro _ d hd
        exact absurd hd (List.not_mem_nil d)
      · intro _
        exact ⟨[], rfl⟩
    | cons d rest ih =>
      simp only [map_dicts_to_dataclasses]
      cases hf : feedItemOfDict d with
      | error e =>
        constructor
        · rintro ⟨fis, hfis⟩
          simp at hfis
        · intro hall
          obtain ⟨fi, hfi⟩ := hall d (List.mem_cons_self d rest)
          rw [hf] at hfi
          exact absurd hfi (by simp)
      | ok fi =>
        cases hr : map_dicts_to_dataclasses rest with
        | error e =>
          constructor
          · rintro ⟨fis, hfis⟩
            simp at hfis
          · intro hall
            obtain ⟨fis, hfis⟩ := ih.mpr
              fun d' hd' => hall d' (List.mem_cons_of_mem d hd')
            rw [hr] at hfis
            exact absurd hfis (by simp)
        | ok fis =>
          constructor
          · intro _ d' hd'
            rcases List.mem_cons.mp hd' with h' | h'
            · subst h'
              exact ⟨fi, hf⟩
            · exact (ih.mp ⟨fis, hr⟩) d' h'
          · intro _
            exact ⟨fi :: fis, rfl⟩

/-- C4 witness: the field-for-field correspondence evaluated on the
concrete nine-key element. -/
theorem claim_C4_witness :
    c4SampleItem.feed_id = (c4SampleDict.lookup "feed_id").getD .null ∧
    c4SampleItem.item_id = (c4SampleDict.lookup "item_id").getD .null ∧
    c4SampleItem.input_id = (c4SampleDict.lookup "input_id").getD .null ∧
    c4SampleItem.title = (c4SampleDict.lookup "title").getD .null ∧
    c4SampleItem.content = (c4SampleDict.lookup "content").getD .null ∧
    c4SampleItem.canonical_url = (c4SampleDict.lookup "canonical_url").getD .null ∧
    c4SampleItem.item_time = (c4SampleDict.lookup "item_time").getD .null ∧
    c4SampleItem.item_time_ms = (c4SampleDict.lookup "item_time_ms").getD .null ∧
    c4SampleItem.deleted = (c4SampleDict.lookup "deleted").getD .null ∧
    c4SampleItem.associated_files = (c4SampleDict.lookup "associated_files").getD .null :=
  claim_C4_strict_mapping.2.1 c4SampleDict c4SampleItem (by rfl)

/-- C5 (confirmed): whenever the feed id is empty, or its
whitespace-trimmed form does not have exactly 45 characters, `read_items`
raises `ValueError` before any network request, for every combination of
the remaining arguments. -/
theorem claim_C5_feed_id_validation :
    ∀ (feed_id : List Char) (max_items : Int) (include_item_content : Bool)
      (item_time_after item_time_before : Option PyVal),
      (pyStrip feed_id).length ≠ 45 →
      ∃ e, read_items feed_id max_items include_item_content
        item_time_after item_time_before = .error e := by
  intro fid m inc a b h
  unfold read_items
  by_cases he : fid = []
  · rw [if_pos he]
    exact ⟨_, rfl⟩
  · rw [if_neg he]
    dsimp only
    rw [if_pos h]
    exact ⟨_, rfl⟩

/-- C5 witness: a three-character feed id is rejected. -/
theorem claim_C5_witness :
    (pyStrip "abc".data).length ≠ 45 ∧
    ∃ e, read_items "abc".data 10 false none none = .error e :=
  ⟨by decide, claim_C5_feed_id_validation "abc".data 10 false none none (by decide)⟩

/-- C7 (confirmed): with a well-formed feed id and no time bounds,
`read_items` raises `ValueError` (making no network call) exactly when
`max_items` lies outside `[1,10]` while `include_item_content` is true, or
outside `[1,50]` while it is false. -/
theorem claim_C7_max_items_validation :
    ∀ (feed_id : List Char) (max_items : Int) (include_item_content : Bool),
      feed_id ≠ [] → (pyStrip feed_id).length = 45 →
      ((∃ e, read_items feed_id max_items include_item_content none none = .error e) ↔
        ((include_item_content = true ∧ ¬(1 ≤ max_items ∧ max_items ≤ 10)) ∨
         (include_item_content = false ∧ ¬(1 ≤ max_items ∧ max_items ≤ 50)))) := by
  intro fid m inc hne h45
  unfold read_items
  rw [if_neg hne]
  dsimp only
  rw [if_neg (by simp [h45])]
  by_cases h1 : inc = true ∧ ¬(1 ≤ m ∧ m ≤ 10)
  · rw [if_pos h1]
    exact ⟨fun _ => Or.inl h1, fun _ => ⟨_, rfl⟩⟩
  · rw [if_neg h1]
    by_cases h2 : 1 ≤ m ∧ m ≤ 50
    · rw [if_neg (not_not_intro h2)]
      rw [if_neg (by simp [optTruthy])]
      constructor
      · rintro ⟨e, he⟩
        exact absurd he (by simp)
      · rintro (⟨hinc, hm⟩ | ⟨hinc, hm⟩)
        · exact absurd ⟨hinc, hm⟩ h1
        · exact absurd h2 hm
    · rw [if_pos h2]
      refine ⟨fun _ => ?_, fun _ => ⟨_, rfl⟩⟩
      rcases Bool.eq_false_or_eq_true inc with hinc | hinc
      · exact absurd ⟨hinc, fun hm10 => h2 ⟨hm10.1, by omega⟩⟩ h1
      · exact Or.inr ⟨hinc, h2⟩

/-- C7 witness: `include_item_content = true` with `max_items = 20` is
rejected. -/
theorem claim_C7_witness :
    (∃ e, read_items (List.replicate 45 'a') 20 true none none = .error e) ↔
      ((true = true ∧ ¬((1:Int) ≤ 20 ∧ (20:Int) ≤ 10)) ∨
       (true = false ∧ ¬((1:Int) ≤ 20 ∧ (20:Int) ≤ 50))) :=
  claim_C7_max_items_validation (List.replicate 45 'a') 20 true (by decide) (by decide)

/-- C8 (confirmed): submitting an empty item list is a deliberate no-op —
no network call, no exception, no result — and the warning is logged
exactly when `quiet` is false. -/
theorem claim_C8_empty_submit :
    ∀ quiet : Bool, new_items quiet [] = .noop !quiet := by
  intro q
  rfl

/-- C9 (confirmed): `ping_bool` is total (never raises): it returns `true`
with no logging exactly when the underlying `ping` succeeds, and on any
failure returns `false` after logging at error level — independent of the
`quiet` setting. -/
theorem claim_C9_ping_bool :
    ∀ quiet : Bool,
      (∀ v, ping_bool quiet (.ok v) = (true, [])) ∧
      (∀ e, ping_bool quiet (.error e) = (false, [.errorLog e])) := by
  intro q
  exact ⟨fun v => rfl, fun e => rfl⟩

/-- C10 (confirmed): a non-empty submission containing an element that is
not an `InputItem` raises `ValueError` during serialization, before any
network request. -/
theorem claim_C10_non_input_item :
    ∀ (quiet : Bool) (items : List PyObj),
      items ≠ [] → (∃ x ∈ items, isInputItem x = false) →
      ∃ e, new_items quiet items = .error e := by
  intro q items hne hbad
  have herr : ∃ e, map_dataclasses_to_dicts items = .error e := by
    clear hne
    induction items with
    | nil =>
      obtain ⟨y, hy, _⟩ := hbad
      exact absurd hy (List.not_mem_nil y)
    | cons x rest ih =>
      obtain ⟨y, hy, hni⟩ := hbad
      cases x with
      | other => exact ⟨_, rfl⟩
      | input it =>
        have hrest : ∃ z ∈ rest, isInputItem z = false := by
          rcases List.mem_cons.mp hy with h' | h'
          · subst h'
            exact absurd hni (by simp [isInputItem])
          · exact ⟨y, h', hni⟩
        obtain ⟨e, he⟩ := ih hrest
        refine ⟨e, ?_⟩
        simp only [map_dataclasses_to_dicts]
        rw [he]
  obtain ⟨e, he⟩ := herr
  refine ⟨e, ?_⟩
  unfold new_items
  rw [if_neg hne, he]

/-- C10 witness: a singleton list holding a non-`InputItem` value is
rejected. -/
theorem claim_C10_witness :
    ∃ e, new_items false [PyObj.other] = .error e :=
  claim_C10_non_input_item false [PyObj.other] (by decide)
    ⟨PyObj.other, by decide, by decide⟩

end Yupdates
